import Mathlib

/-!
The timerlib library: a one-shot timer driven by a dedicated worker thread.

A shallow embedding of `src/timerlib.c` and `src/timerlib.h`.

* The fields of `struct timerlib_ctx` that the code reads or writes are kept in
  `timerlib_ctx`; `int` fields are integers, pointers (`cb`, `cookie`) are
  plain natural numbers.
* The operating system is not part of the repository. Every system call takes
  its outcome as an argument (`sys_result`, `gettime_result`, the `ret` and
  `count` of `read`), and every call that acts on the outside world is written
  to a log kept next to the context (`settime_calls`, `gettime_calls`,
  `broadcasts`, `cb_calls`).
* The worker thread `timerlib_timeout` is cut at the points where it gives up
  the mutex; `worker_pc` names these points. While the worker is at
  `worker_pc.top` it holds the mutex, so no caller section can run.
* Every caller operation does its work inside one `pthread_mutex_lock` /
  `pthread_mutex_unlock` section and is therefore one atomic step
  (`timerlib_reset` is two sections: that of `timerlib_cancel`, then its own).
-/

namespace Timerlib

/-! ## Data model -/

/-- The notification kinds, `enum timerlib_state` of `timerlib.h`. -/
inductive timerlib_state where
  | NET_TIMER_EXPIRED
  | NET_TIMER_CANCELLED
  | NET_TIMER_RUNNING
  | NET_TIMER_ERROR
  deriving DecidableEq

/-- The C `struct timespec`. -/
structure timespec where
  tv_sec : Int
  tv_nsec : Int
  deriving DecidableEq

/-- The C `struct itimerspec`. -/
structure itimerspec where
  it_interval : timespec
  it_value : timespec
  deriving DecidableEq

/-- The `struct timerlib_args` of timerlib.c, lines 15-20. -/
structure timerlib_args where
  secs : Int
  cb : Nat
  cookie : Nat
  deriving DecidableEq

/-- The fields of `struct timerlib_ctx` (timerlib.c, lines 24-36) used by the
code. `thread`, `mut` and `cond` are represented by the worker position and the
step relation below; the field `args` is never accessed. -/
structure timerlib_ctx where
  fd : Int
  quit : Int
  active : Int
  cb : Nat
  secs : Int
  cookie : Nat
  deriving DecidableEq

/-- Outcome of a system call that reports failure through its return value and
`errno` (here `timerfd_settime`). -/
structure sys_result where
  result : Int
  errno : Int
  deriving DecidableEq

/-- Outcome of `timerfd_gettime`: its return value and the `interval` it
filled in. -/
structure gettime_result where
  result : Int
  interval : itimerspec
  deriving DecidableEq

/-- One call `timerfd_settime(fd, 0, &new_value, NULL)` together with the value
it returned. -/
structure settime_call where
  fd : Int
  new_value : itimerspec
  result : Int
  deriving DecidableEq

/-- One invocation `ctx->cb(state, exp_count, cookie)`, together with the
context as it was at the moment of the call. -/
structure cb_call where
  cb : Nat
  state : timerlib_state
  exp_count : Int
  cookie : Nat
  ctx_at_call : timerlib_ctx
  deriving DecidableEq

/-- Where the worker thread `timerlib_timeout` stands.
* `start`: created, before its first `pthread_mutex_lock` (line 131);
* `top`: at the head of `while(1)` (line 133), holding the mutex;
* `waiting`: inside `pthread_cond_wait` (line 148), mutex released;
* `reading`: mutex released (line 154), inside `read` on the handle (line 162);
* `done`: left the loop (lines 139-140), mutex released, thread returns. -/
inductive worker_pc where
  | start
  | top
  | waiting
  | reading
  | done
  deriving DecidableEq

/-- One timer: the context, the position of its worker, and the log of what the
code did to the outside world. -/
structure timer where
  ctx : timerlib_ctx
  pc : worker_pc
  settime_calls : List settime_call
  gettime_calls : Nat
  broadcasts : Nat
  cb_calls : List cb_call
  deriving DecidableEq

/-- The C conversion to `int` (32 bits, two's complement) of a wider integer,
as in `(int)count` and `(int)interval.it_value.tv_sec`. -/
def int_cast (n : Int) : Int :=
  (n + 2147483648) % 4294967296 - 2147483648

/-! ## Caller operations -/

/-- The interval `timerlib_set_timeout` builds (lines 111-114): one-shot
(`it_interval` zero), expiring after `secs` whole seconds. -/
def one_shot (secs : Int) : itimerspec :=
  { it_interval := { tv_sec := 0, tv_nsec := 0 },
    it_value := { tv_sec := secs, tv_nsec := 0 } }

/-- `timerlib_set_timeout` (lines 106-121): calls `timerfd_settime` on the
handle and returns `errno` if that failed, `0` otherwise. -/
def timerlib_set_timeout (t : timer) (secs : Int) (r : sys_result) : Int × timer :=
  let t1 := { t with
    settime_calls := t.settime_calls ++
      [{ fd := t.ctx.fd, new_value := one_shot secs, result := r.result }] }
  if r.result ≠ 0 then (r.errno, t1) else (0, t1)

/-- The locked section of `timerlib_activate` (lines 208-216). -/
def timerlib_activate_locked (t : timer) (r : sys_result) : timer :=
  if t.ctx.active = 0 then
    let t1 := (timerlib_set_timeout t t.ctx.secs r).2
    let t2 := { t1 with ctx := { t1.ctx with active := 1 } }
    { t2 with broadcasts := t2.broadcasts + 1 }
  else t

/-- `timerlib_activate` (lines 203-219). `none` is the null pointer. -/
def timerlib_activate (ctx : Option timer) (r : sys_result) : Int × Option timer :=
  match ctx with
  | none => (-1, none)
  | some t => (0, some (timerlib_activate_locked t r))

/-- `timerlib_cancel` (lines 272-287). -/
def timerlib_cancel (t : timer) (r : sys_result) : Int × timer :=
  let t1 := if t.ctx.active ≠ 0 then { t with ctx := { t.ctx with active := 0 } } else t
  let t2 := (timerlib_set_timeout t1 1 r).2
  (0, t2)

/-- The locked section of `timerlib_reset` itself (lines 95-97). -/
def timerlib_reset_store (t : timer) (secs : Int) : timer :=
  { t with ctx := { t.ctx with secs := secs } }

/-- `timerlib_reset` (lines 92-100): `timerlib_cancel`, then the store. -/
def timerlib_reset (t : timer) (secs : Int) (r : sys_result) : Int × timer :=
  let t1 := (timerlib_cancel t r).2
  (0, timerlib_reset_store t1 secs)

/-- `timerlib_get_time` (lines 71-89). -/
def timerlib_get_time (t : timer) (q : gettime_result) : Int × timer :=
  if t.ctx.active ≠ 0 then
    let t1 := { t with gettime_calls := t.gettime_calls + 1 }
    if q.result ≠ 0 then (0, t1) else (int_cast q.interval.it_value.tv_sec, t1)
  else (0, t)

/-- `timerlib_is_active` (lines 260-269). -/
def timerlib_is_active (t : timer) : Int × timer :=
  (t.ctx.active, t)

/-- The locked section of `timerlib_free` (lines 295-303). -/
def timerlib_free_locked (t : timer) : timer :=
  if t.ctx.quit = 0 then
    let t1 := { t with ctx := { t.ctx with quit := 1 } }
    { t1 with broadcasts := t1.broadcasts + 1 }
  else t

/-- `timerlib_create_args` (lines 223-258). The arguments after `args` are the
outcomes of `calloc` (did it return memory), `timerfd_create` and
`pthread_create`. `calloc` zeroes `quit` and `active`. -/
def timerlib_create_args (args : timerlib_args) (calloc_ok : Bool) (timerfd : Int)
    (thread_ret : Int) : Option timer :=
  if calloc_ok = false then none
  else if timerfd < 0 then none
  else if thread_ret ≠ 0 then none
  else some
    { ctx := { fd := timerfd, quit := 0, active := 0, cb := args.cb,
               secs := args.secs, cookie := args.cookie },
      pc := worker_pc.start,
      settime_calls := [],
      gettime_calls := 0,
      broadcasts := 0,
      cb_calls := [] }

/-! ## The worker thread -/

/-- The call `ctx->cb(state, exp_count, cookie)`. -/
def invoke_cb (t : timer) (state : timerlib_state) (exp_count : Int) (cookie : Nat) : timer :=
  { t with cb_calls := t.cb_calls ++
      [{ cb := t.ctx.cb, state := state, exp_count := exp_count, cookie := cookie,
         ctx_at_call := t.ctx }] }

/-- The head of the loop of `timerlib_timeout` (lines 137-154), entered with the
mutex held: leave if `quit`, wait on the condition if not `active`, otherwise
drop the mutex and read the handle. -/
def timerlib_timeout_top (t : timer) : timer :=
  if t.ctx.quit ≠ 0 then { t with pc := worker_pc.done }
  else if t.ctx.active = 0 then { t with pc := worker_pc.waiting }
  else { t with pc := worker_pc.reading }

/-- The part of `timerlib_timeout` after `read` came back with `ret`, having
stored `count` (lines 164-192); it ends at `continue`, mutex held. -/
def timerlib_timeout_after_read (t : timer) (ret : Int) (count : Nat) : timer :=
  if ret = -1 then
    { t with ctx := { t.ctx with quit := 1 }, pc := worker_pc.top }
  else if t.ctx.active ≠ 0 then
    let t1 := invoke_cb t timerlib_state.NET_TIMER_EXPIRED (int_cast count) t.ctx.cookie
    { t1 with ctx := { t1.ctx with active := 0 }, pc := worker_pc.top }
  else
    let t1 := invoke_cb t timerlib_state.NET_TIMER_CANCELLED (int_cast count) t.ctx.cookie
    { t1 with pc := worker_pc.top }

/-! ## Interleavings -/

/-- The atomic steps of one timer: the locked sections of the caller
operations, and the worker's moves between the points of `worker_pc`. -/
inductive event where
  | activate (r : sys_result)
  | cancel (r : sys_result)
  | reset_store (secs : Int)
  | get_time (q : gettime_result)
  | is_active
  | free_lock
  | worker_lock
  | worker_top
  | worker_wake
  | worker_read (ret : Int) (count : Nat)
  deriving DecidableEq

/-- One step. `none` when the step cannot happen: a caller section while the
worker holds the mutex, or a worker move from another position. The worker may
return from `pthread_cond_wait` at any time (spurious wake-ups are allowed). -/
def step (e : event) (t : timer) : Option timer :=
  match e with
  | event.activate r =>
      if t.pc = worker_pc.top then none else some (timerlib_activate_locked t r)
  | event.cancel r =>
      if t.pc = worker_pc.top then none else some (timerlib_cancel t r).2
  | event.reset_store secs =>
      if t.pc = worker_pc.top then none else some (timerlib_reset_store t secs)
  | event.get_time q =>
      if t.pc = worker_pc.top then none else some (timerlib_get_time t q).2
  | event.is_active =>
      if t.pc = worker_pc.top then none else some (timerlib_is_active t).2
  | event.free_lock =>
      if t.pc = worker_pc.top then none else some (timerlib_free_locked t)
  | event.worker_lock =>
      if t.pc = worker_pc.start then some { t with pc := worker_pc.top } else none
  | event.worker_top =>
      if t.pc = worker_pc.top then some (timerlib_timeout_top t) else none
  | event.worker_wake =>
      if t.pc = worker_pc.waiting then some { t with pc := worker_pc.top } else none
  | event.worker_read ret count =>
      if t.pc = worker_pc.reading then some (timerlib_timeout_after_read t ret count)
      else none

/-- A sequence of steps, `none` as soon as one of them cannot happen. -/
def run : List event → timer → Option timer
  | [], t => some t
  | e :: es, t =>
    match step e t with
    | none => none
    | some t1 => run es t1

/-- Whether step `e`, taken from `t`, is a `timerlib_activate` that switches
`active` from zero to one (1) or not (0). -/
def arms (e : event) (t : timer) : Nat :=
  match e with
  | event.activate _ => if t.ctx.active = 0 then 1 else 0
  | _ => 0

/-- The number of `activate` steps of a run that found `active` zero, that is,
that switched the timer from unarmed to armed. -/
def activations : List event → timer → Nat
  | [], _ => 0
  | e :: es, t =>
    match step e t with
    | none => 0
    | some t1 => arms e t + activations es t1

/-- Callbacks still owed to past activations: one if the worker is reading the
handle, or if the timer is armed and the worker has yet to see it. -/
def pending (t : timer) : Nat :=
  if t.pc = worker_pc.reading then 1 else if t.ctx.active ≠ 0 then 1 else 0

/-- Steps of the worker. -/
def event.is_worker : event → Bool
  | event.worker_lock => true
  | event.worker_top => true
  | event.worker_wake => true
  | event.worker_read _ _ => true
  | _ => false

/-- The `activate` steps. -/
def event.is_activate : event → Bool
  | event.activate _ => true
  | _ => false

/-- Steps during which the countdown has not elapsed and the caller changes
nothing: worker moves other than a return of `read`, and the two queries. -/
def event.is_quiet : event → Bool
  | event.worker_lock => true
  | event.worker_top => true
  | event.worker_wake => true
  | event.get_time _ => true
  | event.is_active => true
  | _ => false

/-- A successful system call. -/
def sys_ok : sys_result := { result := 0, errno := 0 }

/-- A failed `timerfd_settime`: returns -1 with `errno` set to `EINVAL` (22). -/
def sys_einval : sys_result := { result := -1, errno := 22 }

/-- A sample timer: `timerlib_create(5, cb, cookie)` with callback 7, cookie 9,
handle 3. -/
def fresh5 : timer :=
  { ctx := { fd := 3, quit := 0, active := 0, cb := 7, secs := 5, cookie := 9 },
    pc := worker_pc.start,
    settime_calls := [],
    gettime_calls := 0,
    broadcasts := 0,
    cb_calls := [] }

/-- The sample timer, armed, with its worker blocked in `read`. -/
def armed5 : timer :=
  { ctx := { fd := 3, quit := 0, active := 1, cb := 7, secs := 5, cookie := 9 },
    pc := worker_pc.reading,
    settime_calls := [{ fd := 3, new_value := one_shot 5, result := 0 }],
    gettime_calls := 0,
    broadcasts := 1,
    cb_calls := [] }

/-- The sample timer after activate and cancel both ran before the worker
looked at `active`: unarmed, the worker waiting on the condition, two calls made
on the handle, no callback. -/
def missed5 : timer :=
  { ctx := { fd := 3, quit := 0, active := 0, cb := 7, secs := 5, cookie := 9 },
    pc := worker_pc.waiting,
    settime_calls := [{ fd := 3, new_value := one_shot 5, result := 0 },
                      { fd := 3, new_value := one_shot 1, result := 0 }],
    gettime_calls := 0,
    broadcasts := 1,
    cb_calls := [] }

/-! ## Single operations -/

/-- C1: when the worker's blocking `read` returns normally (`ret` is not -1) the
worker invokes the callback exactly once, with the context's callback pointer
and cookie and the converted expiry count; the kind is `NET_TIMER_EXPIRED` if
`active` was still set when the mutex was re-acquired and `NET_TIMER_CANCELLED`
if it was already clear, never `NET_TIMER_RUNNING` or `NET_TIMER_ERROR`.
Afterwards `active` is zero, `quit` is unchanged, nothing else of the context or
of the handle changed, and the worker is back at the head of its loop. -/
theorem worker_read_normal (t : timer) (ret : Int) (count : Nat)
    (hpc : t.pc = worker_pc.reading) (hret : ret ≠ -1) :
    ∃ t1 c, step (event.worker_read ret count) t = some t1 ∧
      t1.cb_calls = t.cb_calls ++ [c] ∧
      c.cb = t.ctx.cb ∧ c.cookie = t.ctx.cookie ∧ c.exp_count = int_cast count ∧
      (t.ctx.active ≠ 0 → c.state = timerlib_state.NET_TIMER_EXPIRED) ∧
      (t.ctx.active = 0 → c.state = timerlib_state.NET_TIMER_CANCELLED) ∧
      c.state ≠ timerlib_state.NET_TIMER_RUNNING ∧
      c.state ≠ timerlib_state.NET_TIMER_ERROR ∧
      t1.ctx = { t.ctx with active := 0 } ∧
      t1.ctx.active = 0 ∧ t1.ctx.quit = t.ctx.quit ∧
      t1.pc = worker_pc.top ∧
      t1.settime_calls = t.settime_calls ∧ t1.broadcasts = t.broadcasts := by
  by_cases h : t.ctx.active = 0
  · refine ⟨timerlib_timeout_after_read t ret count,
      ⟨t.ctx.cb, timerlib_state.NET_TIMER_CANCELLED, int_cast count, t.ctx.cookie, t.ctx⟩, ?_⟩
    cases t with
    | mk ctx pc sc gc bc cc =>
      cases ctx
      simp_all [step, timerlib_timeout_after_read, invoke_cb]
  · refine ⟨timerlib_timeout_after_read t ret count,
      ⟨t.ctx.cb, timerlib_state.NET_TIMER_EXPIRED, int_cast count, t.ctx.cookie, t.ctx⟩, ?_⟩
    simp_all [step, timerlib_timeout_after_read, invoke_cb]

/-- Witness for `worker_read_normal`: the armed sample timer, `read` returning 8
bytes with one expiry. -/
theorem worker_read_normal_witness :
    armed5.pc = worker_pc.reading ∧ (8 : Int) ≠ -1 ∧
    ∃ t1 c, step (event.worker_read 8 1) armed5 = some t1 ∧
      t1.cb_calls = armed5.cb_calls ++ [c] ∧
      c.state = timerlib_state.NET_TIMER_EXPIRED ∧ c.cookie = 9 ∧
      t1.ctx.active = 0 ∧ t1.pc = worker_pc.top := by
  refine ⟨rfl, by decide, ?_⟩
  obtain ⟨t1, c, h1, h2, _, h4, _, h6, _, _, _, _, h11, _, h13, _⟩ :=
    worker_read_normal armed5 8 1 rfl (by decide)
  exact ⟨t1, c, h1, h2, h6 (by decide), h4, h11, h13⟩

/-- C3: `timerlib_activate` on a non-null context that is already armed returns
0 and leaves the whole timer as it was: every field of the context, the calls
made on the handle (no new `timerfd_settime`), and the number of broadcasts (the
worker is not signalled). Hence activating twice gives the same return value,
context and handle log as activating once. -/
theorem activate_idempotent (t : timer) (r : sys_result) (h : t.ctx.active ≠ 0) :
    timerlib_activate (some t) r = (0, some t) ∧
    (timerlib_activate_locked t r).ctx = t.ctx ∧
    (timerlib_activate_locked t r).settime_calls = t.settime_calls ∧
    (timerlib_activate_locked t r).broadcasts = t.broadcasts ∧
    (∀ (t0 : timer) (r1 r2 : sys_result),
      timerlib_activate (timerlib_activate (some t0) r1).2 r2
        = timerlib_activate (some t0) r1) := by
  have hno : timerlib_activate_locked t r = t := by
    simp [timerlib_activate_locked, h]
  refine ⟨by simp [timerlib_activate, hno], by rw [hno], by rw [hno], by rw [hno], ?_⟩
  intro t0 r1 r2
  by_cases h0 : t0.ctx.active = 0
  · simp [timerlib_activate, timerlib_activate_locked, h0, timerlib_set_timeout]
  · simp [timerlib_activate, timerlib_activate_locked, h0]

/-- Witness for `activate_idempotent`: the armed sample timer. -/
theorem activate_idempotent_witness :
    armed5.ctx.active ≠ 0 ∧ timerlib_activate (some armed5) sys_ok = (0, some armed5) :=
  ⟨by decide, (activate_idempotent armed5 sys_ok (by decide)).1⟩

/-- C4, the code at the failing input: on the unarmed timer created with
`secs = -1`, with `timerfd_settime` failing (`EINVAL`), `timerlib_set_timeout`
returns 22, yet `timerlib_activate` returns 0 and leaves `active` set to 1. -/
theorem activate_ignores_arming_failure :
    (timerlib_create_args { secs := -1, cb := 7, cookie := 9 } true 3 0).map
        (fun t => (t.ctx.active,
                   (timerlib_set_timeout t t.ctx.secs sys_einval).1,
                   (timerlib_activate (some t) sys_einval).1,
                   (timerlib_activate (some t) sys_einval).2.map (fun u => u.ctx.active)))
      = some (0, 22, 0, some 1) := by
  decide

/-- C5, counterexample: at the genuine expiry of the armed sample timer the
callback is invoked with kind `NET_TIMER_EXPIRED` while `active` is still 1. -/
theorem expired_callback_sees_armed_example :
    (step (event.worker_read 8 1) armed5).map
        (fun t => t.cb_calls.map (fun c => (c.state, c.ctx_at_call.active)))
      = some [(timerlib_state.NET_TIMER_EXPIRED, 1)] := by
  decide

/-- C5, amended: at every genuine expiry (`read` returns normally, `active`
still set) the worker invokes the callback with kind `NET_TIMER_EXPIRED` while
`active` is still set, and clears `active` right after the callback returns,
before it gives up the mutex: when the step ends `active` is zero, the worker
is at the head of its loop holding the mutex, and no caller section can run
before the worker moves on. What `timerlib_is_active` reads from the context is
nonzero as of the call and zero as of the end of the step. -/
theorem expired_callback_sees_armed (t : timer) (ret : Int) (count : Nat)
    (hpc : t.pc = worker_pc.reading) (hret : ret ≠ -1) (hact : t.ctx.active ≠ 0) :
    ∃ t1 c, step (event.worker_read ret count) t = some t1 ∧
      t1.cb_calls = t.cb_calls ++ [c] ∧
      c.state = timerlib_state.NET_TIMER_EXPIRED ∧
      c.ctx_at_call = t.ctx ∧ c.ctx_at_call.active ≠ 0 ∧
      t1.ctx.active = 0 ∧ t1.pc = worker_pc.top ∧
      (∀ e : event, e.is_worker = false → step e t1 = none) ∧
      (timerlib_is_active t).1 ≠ 0 ∧ (timerlib_is_active t1).1 = 0 := by
  refine ⟨timerlib_timeout_after_read t ret count,
    ⟨t.ctx.cb, timerlib_state.NET_TIMER_EXPIRED, int_cast count, t.ctx.cookie, t.ctx⟩, ?_⟩
  have hpc1 : (timerlib_timeout_after_read t ret count).pc = worker_pc.top := by
    simp [timerlib_timeout_after_read, hret, hact, invoke_cb]
  refine ⟨by simp [step, hpc], ?_, rfl, rfl, hact, ?_, hpc1, ?_, hact, ?_⟩
  · simp [timerlib_timeout_after_read, hret, hact, invoke_cb]
  · simp [timerlib_timeout_after_read, hret, hact, invoke_cb]
  · intro e he
    cases e <;> simp_all [step, event.is_worker]
  · simp [timerlib_is_active, timerlib_timeout_after_read, hret, hact, invoke_cb]

/-- Witness for `expired_callback_sees_armed`: the armed sample timer. -/
theorem expired_callback_sees_armed_witness :
    armed5.pc = worker_pc.reading ∧ (8 : Int) ≠ -1 ∧ armed5.ctx.active ≠ 0 ∧
    ∃ (t1 : timer) (c : cb_call), step (event.worker_read 8 1) armed5 = some t1 ∧
      c.state = timerlib_state.NET_TIMER_EXPIRED ∧ c.ctx_at_call.active ≠ 0 ∧
      t1.ctx.active = 0 := by
  refine ⟨rfl, by decide, by decide, ?_⟩
  obtain ⟨t1, c, h1, _, h3, _, h5, h6, _⟩ :=
    expired_callback_sees_armed armed5 8 1 rfl (by decide) (by decide)
  exact ⟨t1, c, h1, h3, h5, h6⟩

/-- What `timerlib_cancel` does to each part of the timer. -/
theorem cancel_fields (t : timer) (r : sys_result) :
    (timerlib_cancel t r).1 = 0 ∧
    (timerlib_cancel t r).2.ctx.active = 0 ∧
    (timerlib_cancel t r).2.ctx = { t.ctx with active := 0 } ∧
    (timerlib_cancel t r).2.settime_calls = t.settime_calls ++
      [{ fd := t.ctx.fd, new_value := one_shot 1, result := r.result }] ∧
    (timerlib_cancel t r).2.cb_calls = t.cb_calls ∧
    (timerlib_cancel t r).2.broadcasts = t.broadcasts ∧
    (timerlib_cancel t r).2.pc = t.pc ∧
    (timerlib_cancel t r).2.gettime_calls = t.gettime_calls := by
  by_cases h : t.ctx.active = 0
  · cases t with
    | mk ctx pc sc gc bc cc =>
      cases ctx
      by_cases hr : r.result = 0 <;>
        simp_all [timerlib_cancel, timerlib_set_timeout]
  · by_cases hr : r.result = 0 <;>
      simp_all [timerlib_cancel, timerlib_set_timeout]

/-- C7: for every timer, armed or not, `timerlib_cancel` returns 0, leaves
`active` zero and every other field of the context (`fd`, `quit`, `cb`, `secs`,
`cookie`) unchanged, and issues exactly one `timerfd_settime` on the handle,
with a one-shot value of 1 second, whatever `active` was; it makes no callback,
no broadcast and no query, and does not move the worker. On a timer that was
not armed the context is unchanged and the call on the handle is the only
effect. -/
theorem cancel_effect (t : timer) (r : sys_result) :
    (timerlib_cancel t r).1 = 0 ∧
    (timerlib_cancel t r).2.ctx.active = 0 ∧
    (timerlib_cancel t r).2.ctx = { t.ctx with active := 0 } ∧
    (timerlib_cancel t r).2.ctx.secs = t.ctx.secs ∧
    (timerlib_cancel t r).2.ctx.quit = t.ctx.quit ∧
    (timerlib_cancel t r).2.ctx.cb = t.ctx.cb ∧
    (timerlib_cancel t r).2.ctx.cookie = t.ctx.cookie ∧
    (timerlib_cancel t r).2.settime_calls = t.settime_calls ++
      [{ fd := t.ctx.fd,
         new_value := { it_interval := { tv_sec := 0, tv_nsec := 0 },
                        it_value := { tv_sec := 1, tv_nsec := 0 } },
         result := r.result }] ∧
    (timerlib_cancel t r).2.cb_calls = t.cb_calls ∧
    (timerlib_cancel t r).2.broadcasts = t.broadcasts ∧
    (timerlib_cancel t r).2.gettime_calls = t.gettime_calls ∧
    (timerlib_cancel t r).2.pc = t.pc ∧
    (t.ctx.active = 0 → (timerlib_cancel t r).2.ctx = t.ctx) ∧
    (t.ctx.active = 0 → (timerlib_cancel t r).2 =
      { t with settime_calls := t.settime_calls ++
          [{ fd := t.ctx.fd, new_value := one_shot 1, result := r.result }] }) := by
  obtain ⟨h1, h2, h3, h4, h5, h6, h7, h8⟩ := cancel_fields t r
  refine ⟨h1, h2, h3, by rw [h3], by rw [h3], by rw [h3], by rw [h3], h4, h5, h6, h8, h7,
    ?_, ?_⟩
  · intro ha
    rw [h3]
    cases t with
    | mk ctx pc sc gc bc cc =>
      cases ctx
      simp_all
  · intro ha
    by_cases hr : r.result = 0 <;>
      simp [timerlib_cancel, timerlib_set_timeout, ha, hr]

/-- C8: `timerlib_reset t d2` returns 0 and yields the timer of
`timerlib_cancel` with `secs` set to `d2`: `active` is zero, `secs` is `d2`,
and `fd`, `quit`, `cb`, `cookie` are unchanged. A `timerlib_activate` right
afterwards returns 0, issues `timerfd_settime` with a one-shot value of exactly
`d2` seconds, sets `active` to 1 and signals the worker once. -/
theorem reset_effect (t : timer) (d2 : Int) (r r2 : sys_result) :
    (timerlib_reset t d2 r).1 = 0 ∧
    (timerlib_reset t d2 r).2 =
      { (timerlib_cancel t r).2 with ctx := { (timerlib_cancel t r).2.ctx with secs := d2 } } ∧
    (timerlib_reset t d2 r).2.ctx = { t.ctx with active := 0, secs := d2 } ∧
    (timerlib_reset t d2 r).2.cb_calls = t.cb_calls ∧
    (∃ u, timerlib_activate (some (timerlib_reset t d2 r).2) r2 = (0, some u) ∧
      u.ctx = { t.ctx with active := 1, secs := d2 } ∧
      u.settime_calls = (timerlib_reset t d2 r).2.settime_calls ++
        [{ fd := t.ctx.fd,
           new_value := { it_interval := { tv_sec := 0, tv_nsec := 0 },
                          it_value := { tv_sec := d2, tv_nsec := 0 } },
           result := r2.result }] ∧
      u.broadcasts = t.broadcasts + 1) := by
  have hc := cancel_fields t r
  obtain ⟨_, hc2, hc3, hc4, hc5, hc6, hc7, _⟩ := hc
  refine ⟨rfl, rfl, ?_, ?_, ?_⟩
  · simp [timerlib_reset, timerlib_reset_store, hc3]
  · simp [timerlib_reset, timerlib_reset_store, hc5]
  · refine ⟨timerlib_activate_locked (timerlib_reset t d2 r).2 r2, rfl, ?_⟩
    by_cases hr : r2.result = 0 <;>
      simp [timerlib_activate_locked, timerlib_reset, timerlib_reset_store, hc2, hc3, hc6,
        timerlib_set_timeout, one_shot, hr]

/-- C9: `timerlib_get_time` returns 0 and leaves the timer untouched (no call
on the handle at all) whenever `active` is zero; that is the case on a freshly
created timer, after `timerlib_cancel`, and after the worker handled a normal
return of `read`. When `active` is set it queries the handle once and returns 0
if the query failed, otherwise the seconds field of the remaining time converted
to `int`, which is that field itself whenever it fits an `int`. It never
changes the context and never calls `timerfd_settime`. -/
theorem get_time_effect (t : timer) (q : gettime_result) :
    (t.ctx.active = 0 → timerlib_get_time t q = (0, t)) ∧
    (∀ args fd t0, timerlib_create_args args true fd 0 = some t0 →
      timerlib_get_time t0 q = (0, t0)) ∧
    (∀ r, timerlib_get_time (timerlib_cancel t r).2 q = (0, (timerlib_cancel t r).2)) ∧
    (∀ ret count, ret ≠ -1 →
      timerlib_get_time (timerlib_timeout_after_read t ret count) q
        = (0, timerlib_timeout_after_read t ret count)) ∧
    (t.ctx.active ≠ 0 → q.result ≠ 0 → (timerlib_get_time t q).1 = 0) ∧
    (t.ctx.active ≠ 0 → q.result = 0 →
      (timerlib_get_time t q).1 = int_cast q.interval.it_value.tv_sec) ∧
    (t.ctx.active ≠ 0 → q.result = 0 →
      -2147483648 ≤ q.interval.it_value.tv_sec → q.interval.it_value.tv_sec < 2147483648 →
      (timerlib_get_time t q).1 = q.interval.it_value.tv_sec) ∧
    (t.ctx.active ≠ 0 → (timerlib_get_time t q).2.gettime_calls = t.gettime_calls + 1) ∧
    (timerlib_get_time t q).2.ctx = t.ctx ∧
    (timerlib_get_time t q).2.settime_calls = t.settime_calls ∧
    (timerlib_get_time t q).2.cb_calls = t.cb_calls ∧
    (timerlib_get_time t q).2.broadcasts = t.broadcasts ∧
    (timerlib_get_time t q).2.pc = t.pc := by
  have hz : ∀ u : timer, u.ctx.active = 0 → timerlib_get_time u q = (0, u) := by
    intro u hu
    simp [timerlib_get_time, hu]
  refine ⟨hz t, ?_, ?_, ?_, ?_, ?_, ?_, ?_, ?_⟩
  · intro args fd t0 h0
    apply hz
    unfold timerlib_create_args at h0
    split_ifs at h0 <;> cases h0 <;> rfl
  · intro r
    exact hz _ (cancel_fields t r).2.1
  · intro ret count hret
    apply hz
    by_cases ha : t.ctx.active = 0 <;>
      simp [timerlib_timeout_after_read, hret, ha, invoke_cb]
  · intro ha hq
    simp [timerlib_get_time, ha, hq]
  · intro ha hq
    simp [timerlib_get_time, ha, hq]
  · intro ha hq hlo hhi
    simp only [timerlib_get_time, int_cast, ne_eq, ha, not_false_eq_true, if_true, hq,
      not_true_eq_false, if_false]
    omega
  · intro ha
    by_cases hq : q.result = 0 <;> simp [timerlib_get_time, ha, hq]
  · by_cases ha : t.ctx.active = 0 <;> by_cases hq : q.result = 0 <;>
      simp [timerlib_get_time, ha, hq]

/-! ## Runs -/

/-- A run over a concatenation is a run over the first part followed by a run
over the second. -/
theorem run_append (a b : List event) (t t2 : timer) :
    run (a ++ b) t = some t2 ↔ ∃ t1, run a t = some t1 ∧ run b t1 = some t2 := by
  induction a generalizing t with
  | nil => simp [run]
  | cons e es ih =>
    simp only [List.cons_append, run]
    cases hs : step e t with
    | none => simp
    | some u => simpa using ih u

/-- No step clears `quit`. -/
theorem step_quit (e : event) (t t1 : timer) (h : step e t = some t1)
    (hq : t.ctx.quit ≠ 0) : t1.ctx.quit ≠ 0 := by
  cases e <;> simp only [step] at h <;> split_ifs at h <;> cases h <;>
    simp only [timerlib_activate_locked, timerlib_cancel, timerlib_set_timeout,
      timerlib_reset_store, timerlib_get_time, timerlib_is_active, timerlib_free_locked,
      timerlib_timeout_top, timerlib_timeout_after_read, invoke_cb] <;>
    (try split_ifs) <;> simp_all

/-- No run clears `quit`. -/
theorem run_quit (tr : List event) (t t1 : timer) (h : run tr t = some t1)
    (hq : t.ctx.quit ≠ 0) : t1.ctx.quit ≠ 0 := by
  induction tr generalizing t with
  | nil =>
    simp only [run, Option.some.injEq] at h
    rw [← h]
    exact hq
  | cons e es ih =>
    simp only [run] at h
    cases hs : step e t with
    | none => simp [hs] at h
    | some u =>
      simp only [hs] at h
      exact ih u h (step_quit e t u hs hq)

/-- Once the worker has left its loop it stays out, and no step makes a
callback. -/
theorem step_done (e : event) (t t1 : timer) (h : step e t = some t1)
    (hd : t.pc = worker_pc.done) : t1.pc = worker_pc.done ∧ t1.cb_calls = t.cb_calls := by
  cases e <;> simp only [step] at h <;> split_ifs at h <;> cases h <;>
    simp only [timerlib_activate_locked, timerlib_cancel, timerlib_set_timeout,
      timerlib_reset_store, timerlib_get_time, timerlib_is_active, timerlib_free_locked,
      timerlib_timeout_top, timerlib_timeout_after_read, invoke_cb] <;>
    (try split_ifs) <;> simp_all

/-- Run version of `step_done`. -/
theorem run_done (tr : List event) (t t1 : timer) (h : run tr t = some t1)
    (hd : t.pc = worker_pc.done) : t1.pc = worker_pc.done ∧ t1.cb_calls = t.cb_calls := by
  induction tr generalizing t with
  | nil =>
    simp only [run, Option.some.injEq] at h
    rw [← h]
    exact ⟨hd, rfl⟩
  | cons e es ih =>
    simp only [run] at h
    cases hs : step e t with
    | none => simp [hs] at h
    | some u =>
      simp only [hs] at h
      obtain ⟨h1, h2⟩ := step_done e t u hs hd
      obtain ⟨h3, h4⟩ := ih u h h1
      exact ⟨h3, h4.trans h2⟩

/-- C10: when the worker's blocking `read` returns -1, the worker sets `quit`
to 1 and changes nothing else, invokes no callback (none of kind
`NET_TIMER_ERROR` either) and holds the mutex at the head of its loop, where the
only step that can follow is its loop check; that check sends it out of the
loop (`done`) without a wait on the condition or a further `read`. From then on
no worker step is possible, and in every continuation `quit` stays set and no
callback is ever made. -/
theorem worker_read_error (t : timer) (count : Nat) (hpc : t.pc = worker_pc.reading) :
    ∃ t1 t2, step (event.worker_read (-1) count) t = some t1 ∧
      t1.ctx = { t.ctx with quit := 1 } ∧
      t1.cb_calls = t.cb_calls ∧
      t1.settime_calls = t.settime_calls ∧
      t1.pc = worker_pc.top ∧
      (∀ e u, step e t1 = some u → e = event.worker_top) ∧
      step event.worker_top t1 = some t2 ∧
      t2.pc = worker_pc.done ∧ t2.ctx = t1.ctx ∧ t2.cb_calls = t.cb_calls ∧
      (∀ e : event, e.is_worker = true → step e t2 = none) ∧
      (∀ tr t3, run tr t1 = some t3 → t3.ctx.quit ≠ 0 ∧ t3.cb_calls = t.cb_calls) := by
  have hstep : step (event.worker_read (-1) count) t
      = some (timerlib_timeout_after_read t (-1) count) := by
    simp [step, hpc]
  have hpc1 : (timerlib_timeout_after_read t (-1) count).pc = worker_pc.top := by
    simp [timerlib_timeout_after_read]
  have hq1 : (timerlib_timeout_after_read t (-1) count).ctx.quit = 1 := by
    simp [timerlib_timeout_after_read]
  have hcb1 : (timerlib_timeout_after_read t (-1) count).cb_calls = t.cb_calls := by
    simp [timerlib_timeout_after_read]
  have honly : ∀ e u, step e (timerlib_timeout_after_read t (-1) count) = some u →
      e = event.worker_top := by
    intro e u h
    cases e <;> simp_all [step]
  have htop : step event.worker_top (timerlib_timeout_after_read t (-1) count)
      = some (timerlib_timeout_top (timerlib_timeout_after_read t (-1) count)) := by
    simp [step, hpc1]
  have hpc2 : (timerlib_timeout_top (timerlib_timeout_after_read t (-1) count)).pc
      = worker_pc.done := by
    simp [timerlib_timeout_top, hq1]
  have hcb2 : (timerlib_timeout_top (timerlib_timeout_after_read t (-1) count)).cb_calls
      = t.cb_calls := by
    simp [timerlib_timeout_top, hq1, hcb1]
  have hq2 : (timerlib_timeout_top (timerlib_timeout_after_read t (-1) count)).ctx.quit
      ≠ 0 := by
    simp [timerlib_timeout_top, hq1]
  refine ⟨_, _, hstep, ?_, hcb1, ?_, hpc1, honly, htop, hpc2, ?_, hcb2, ?_, ?_⟩
  · simp [timerlib_timeout_after_read]
  · simp [timerlib_timeout_after_read]
  · simp [timerlib_timeout_top, hq1]
  · intro e he
    cases e <;> simp_all [step, event.is_worker]
  · intro tr t3 h
    cases tr with
    | nil =>
      simp only [run, Option.some.injEq] at h
      rw [← h]
      exact ⟨by simp [hq1], hcb1⟩
    | cons e es =>
      simp only [run] at h
      cases hs : step e (timerlib_timeout_after_read t (-1) count) with
      | none => simp [hs] at h
      | some u =>
        simp only [hs] at h
        have he := honly e u hs
        subst he
        rw [htop] at hs
        cases hs
        exact ⟨run_quit es _ t3 h hq2, ((run_done es _ t3 h hpc2).2).trans hcb2⟩

/-- Witness for `worker_read_error`: the armed sample timer, `read` failing. -/
theorem worker_read_error_witness :
    armed5.pc = worker_pc.reading ∧
    ∃ t1 t2, step (event.worker_read (-1) 0) armed5 = some t1 ∧
      t1.ctx.quit = 1 ∧ t1.cb_calls = [] ∧
      step event.worker_top t1 = some t2 ∧ t2.pc = worker_pc.done := by
  refine ⟨rfl, ?_⟩
  obtain ⟨t1, t2, h1, h2, h3, _, _, _, h7, h8, _⟩ := worker_read_error armed5 0 rfl
  exact ⟨t1, t2, h1, by rw [h2], h3, h7, h8⟩

/-- One step adds at most as many callbacks, counting those still owed, as it
adds activations. -/
theorem step_pending (e : event) (t t1 : timer) (h : step e t = some t1) :
    t1.cb_calls.length + pending t1 ≤ t.cb_calls.length + pending t + arms e t := by
  cases e <;> simp only [step] at h <;> split_ifs at h <;> cases h <;>
    simp only [timerlib_activate_locked, timerlib_cancel, timerlib_set_timeout,
      timerlib_reset_store, timerlib_get_time, timerlib_is_active, timerlib_free_locked,
      timerlib_timeout_top, timerlib_timeout_after_read, invoke_cb, pending, arms] <;>
    (try split_ifs) <;> simp_all

/-- Run version of `step_pending`. -/
theorem run_pending (tr : List event) (t t1 : timer) (h : run tr t = some t1) :
    t1.cb_calls.length + pending t1 ≤ t.cb_calls.length + pending t + activations tr t := by
  induction tr generalizing t with
  | nil =>
    simp only [run, Option.some.injEq] at h
    rw [← h]
    simp [activations]
  | cons e es ih =>
    simp only [run] at h
    cases hs : step e t with
    | none => simp [hs] at h
    | some u =>
      simp only [hs] at h
      have h1 := step_pending e t u hs
      have h2 := ih u h
      simp only [activations, hs]
      omega

/-- C6: in every run of caller sections (activate, cancel, the store of reset,
get_time, is_active, the locked section of free) interleaved with worker steps,
starting from a freshly created timer, the number of callback invocations never
exceeds the number of `timerlib_activate` calls that switched `active` from
zero to one. The reasons hold at every step: the worker starts to block on the
handle only from its loop check with `active` set, and a step that makes a
callback makes exactly one, from the blocked position, and leaves `active`
zero. -/
theorem callbacks_le_activations (args : timerlib_args) (calloc_ok : Bool) (fd thr : Int)
    (t0 t : timer) (tr : List event)
    (h0 : timerlib_create_args args calloc_ok fd thr = some t0)
    (h : run tr t0 = some t) :
    t.cb_calls.length ≤ activations tr t0 ∧
    (∀ e u u1, step e u = some u1 → u1.pc = worker_pc.reading → u.pc ≠ worker_pc.reading →
      e = event.worker_top ∧ u.ctx.active ≠ 0) ∧
    (∀ e u u1, step e u = some u1 → u1.cb_calls ≠ u.cb_calls →
      u.pc = worker_pc.reading ∧ u1.cb_calls.length = u.cb_calls.length + 1 ∧
      u1.ctx.active = 0) := by
  refine ⟨?_, ?_, ?_⟩
  · have hp := run_pending tr t0 t h
    have hinit : t0.cb_calls.length + pending t0 = 0 := by
      unfold timerlib_create_args at h0
      split_ifs at h0
      cases h0
      rfl
    omega
  · intro e u u1 hs h1 h2
    cases e <;> simp only [step] at hs <;> split_ifs at hs <;> cases hs <;>
      simp only [timerlib_activate_locked, timerlib_cancel, timerlib_set_timeout,
        timerlib_reset_store, timerlib_get_time, timerlib_is_active, timerlib_free_locked,
        timerlib_timeout_top, timerlib_timeout_after_read, invoke_cb] at h1 <;>
      (try split_ifs at h1) <;> simp_all
  · intro e u u1 hs h1
    cases e <;> simp only [step] at hs <;> split_ifs at hs <;> cases hs <;>
      simp only [timerlib_activate_locked, timerlib_cancel, timerlib_set_timeout,
        timerlib_reset_store, timerlib_get_time, timerlib_is_active, timerlib_free_locked,
        timerlib_timeout_top, timerlib_timeout_after_read, invoke_cb] at h1 ⊢ <;>
      (try split_ifs at h1 ⊢) <;> simp_all

/-- Witness for `callbacks_le_activations`: on the sample timer, one activation
that runs to its expiry gives one callback against one activation. -/
theorem callbacks_le_activations_witness :
    timerlib_create_args { secs := 5, cb := 7, cookie := 9 } true 3 0 = some fresh5 ∧
    ∃ t, run [event.worker_lock, event.worker_top, event.activate sys_ok, event.worker_wake,
              event.worker_top, event.worker_read 8 1] fresh5 = some t ∧
      t.cb_calls.length = 1 ∧
      t.cb_calls.length ≤ activations [event.worker_lock, event.worker_top,
        event.activate sys_ok, event.worker_wake, event.worker_top,
        event.worker_read 8 1] fresh5 := by
  refine ⟨by decide, ?_⟩
  cases h : run [event.worker_lock, event.worker_top, event.activate sys_ok,
      event.worker_wake, event.worker_top, event.worker_read 8 1] fresh5 with
  | none => exact absurd h (by decide)
  | some t =>
    refine ⟨t, rfl, ?_, (callbacks_le_activations { secs := 5, cb := 7, cookie := 9 } true 3 0
      fresh5 t _ (by decide) h).1⟩
    have h2 : (run [event.worker_lock, event.worker_top, event.activate sys_ok,
      event.worker_wake, event.worker_top, event.worker_read 8 1] fresh5).map
        (fun u => u.cb_calls.length) = some 1 := by decide
    rw [h] at h2
    simpa using h2

/-! ## Activate, then cancel -/

/-- A quiet step changes neither the context nor the callbacks made. -/
theorem step_quiet (e : event) (t t1 : timer) (h : step e t = some t1)
    (hq : e.is_quiet = true) : t1.ctx = t.ctx ∧ t1.cb_calls = t.cb_calls := by
  cases e <;> simp only [event.is_quiet] at hq <;> simp only [step] at h <;>
    split_ifs at h <;> cases h <;>
    (try simp only [timerlib_get_time, timerlib_is_active, timerlib_timeout_top]) <;>
    (try split_ifs) <;> simp_all

/-- Run version of `step_quiet`. -/
theorem run_quiet (tr : List event) (t t1 : timer) (h : run tr t = some t1)
    (hq : ∀ e ∈ tr, e.is_quiet = true) : t1.ctx = t.ctx ∧ t1.cb_calls = t.cb_calls := by
  induction tr generalizing t with
  | nil =>
    simp only [run, Option.some.injEq] at h
    rw [← h]
    exact ⟨rfl, rfl⟩
  | cons e es ih =>
    simp only [run] at h
    cases hs : step e t with
    | none => simp [hs] at h
    | some u =>
      simp only [hs] at h
      obtain ⟨h1, h2⟩ := step_quiet e t u hs (hq e (List.mem_cons_self e es))
      obtain ⟨h3, h4⟩ := ih u h (fun x hx => hq x (List.mem_cons_of_mem e hx))
      exact ⟨h3.trans h1, h4.trans h2⟩

/-- With `active` zero and the worker not blocked on the handle, a step other
than an activation keeps it so, makes no callback, and is not a return of
`read`. -/
theorem step_idle (e : event) (t t1 : timer) (h : step e t = some t1)
    (he : e.is_activate = false) (ha : t.ctx.active = 0) (hpc : t.pc ≠ worker_pc.reading) :
    t1.ctx.active = 0 ∧ t1.pc ≠ worker_pc.reading ∧ t1.cb_calls = t.cb_calls ∧
    (∀ ret count, e ≠ event.worker_read ret count) := by
  cases e <;> simp only [event.is_activate] at he <;> simp only [step] at h <;>
    split_ifs at h <;> cases h <;>
    (try simp only [timerlib_cancel, timerlib_set_timeout,
      timerlib_reset_store, timerlib_get_time, timerlib_is_active, timerlib_free_locked,
      timerlib_timeout_top]) <;>
    (try split_ifs) <;> simp_all

/-- Run version of `step_idle`. -/
theorem run_idle (tr : List event) (t t1 : timer) (h : run tr t = some t1)
    (hna : ∀ e ∈ tr, e.is_activate = false) (ha : t.ctx.active = 0)
    (hpc : t.pc ≠ worker_pc.reading) :
    t1.cb_calls = t.cb_calls ∧ (∀ ret count, event.worker_read ret count ∉ tr) := by
  induction tr generalizing t with
  | nil =>
    simp only [run, Option.some.injEq] at h
    rw [← h]
    simp
  | cons e es ih =>
    simp only [run] at h
    cases hs : step e t with
    | none => simp [hs] at h
    | some u =>
      simp only [hs] at h
      obtain ⟨h1, h2, h3, h4⟩ :=
        step_idle e t u hs (hna e (List.mem_cons_self e es)) ha hpc
      obtain ⟨h5, h6⟩ := ih u h (fun x hx => hna x (List.mem_cons_of_mem e hx)) h1 h2
      refine ⟨h5.trans h3, ?_⟩
      intro ret count hmem
      rcases List.mem_cons.mp hmem with heq | htl
      · exact h4 ret count heq.symm
      · exact h6 ret count htl

/-- With `active` zero and the worker blocked on the handle, a step other than
an activation is either the return of `read`, which ends the blocking and makes
one `NET_TIMER_CANCELLED` callback unless `read` failed, or leaves the worker
blocked and makes no callback. -/
theorem step_blocked (e : event) (t t1 : timer) (h : step e t = some t1)
    (he : e.is_activate = false) (ha : t.ctx.active = 0) (hpc : t.pc = worker_pc.reading) :
    t1.ctx.active = 0 ∧
    ((∃ ret count, e = event.worker_read ret count ∧ t1.pc = worker_pc.top ∧
        (ret = -1 → t1.cb_calls = t.cb_calls) ∧
        (ret ≠ -1 → ∃ c, t1.cb_calls = t.cb_calls ++ [c] ∧
          c.state = timerlib_state.NET_TIMER_CANCELLED)) ∨
     ((∀ ret count, e ≠ event.worker_read ret count) ∧ t1.pc = worker_pc.reading ∧
        t1.cb_calls = t.cb_calls)) := by
  cases e with
  | worker_read ret count =>
    simp only [step, hpc, if_true, Option.some.injEq] at h
    subst h
    by_cases hr : ret = -1
    · refine ⟨by simp [timerlib_timeout_after_read, hr, ha], Or.inl ⟨ret, count, rfl, ?_, ?_, ?_⟩⟩
      · simp [timerlib_timeout_after_read, hr]
      · intro _
        simp [timerlib_timeout_after_read, hr]
      · intro hne
        exact absurd hr hne
    · refine ⟨by simp [timerlib_timeout_after_read, hr, ha, invoke_cb],
        Or.inl ⟨ret, count, rfl, ?_, ?_, ?_⟩⟩
      · simp [timerlib_timeout_after_read, hr, ha, invoke_cb]
      · intro heq
        exact absurd heq hr
      · intro _
        exact ⟨⟨t.ctx.cb, timerlib_state.NET_TIMER_CANCELLED, int_cast count, t.ctx.cookie,
          t.ctx⟩, by simp [timerlib_timeout_after_read, hr, ha, invoke_cb], rfl⟩
  | activate r => simp [event.is_activate] at he
  | cancel r =>
    simp only [step] at h
    split_ifs at h
    cases h
    have hc := cancel_fields t r
    exact ⟨hc.2.1, Or.inr ⟨by simp, hc.2.2.2.2.2.2.1.trans hpc, hc.2.2.2.2.1⟩⟩
  | reset_store secs =>
    simp only [step] at h
    split_ifs at h
    cases h
    exact ⟨ha, Or.inr ⟨by simp, hpc, rfl⟩⟩
  | get_time q =>
    simp only [step] at h
    split_ifs at h
    cases h
    simp [timerlib_get_time, ha, hpc]
  | is_active =>
    simp only [step] at h
    split_ifs at h
    cases h
    simp [timerlib_is_active, ha, hpc]
  | free_lock =>
    simp only [step] at h
    split_ifs at h
    cases h
    simp only [timerlib_free_locked]
    split_ifs <;> simp [ha, hpc]
  | worker_lock => simp [step, hpc] at h
  | worker_top => simp [step, hpc] at h
  | worker_wake => simp [step, hpc] at h

/-- With `active` zero and the worker blocked on the handle, a run without
activations makes either no callback, and then every return of `read` in it is
a failure, or exactly one callback, of kind `NET_TIMER_CANCELLED`, and then the
run has a normal return of `read`. -/
theorem run_blocked (tr : List event) (t t1 : timer) (h : run tr t = some t1)
    (hna : ∀ e ∈ tr, e.is_activate = false) (ha : t.ctx.active = 0)
    (hpc : t.pc = worker_pc.reading) :
    (t1.cb_calls = t.cb_calls ∧ ∀ ret count, event.worker_read ret count ∈ tr → ret = -1) ∨
    (∃ c, t1.cb_calls = t.cb_calls ++ [c] ∧ c.state = timerlib_state.NET_TIMER_CANCELLED ∧
      ∃ ret count, ret ≠ -1 ∧ event.worker_read ret count ∈ tr) := by
  induction tr generalizing t with
  | nil =>
    simp only [run, Option.some.injEq] at h
    rw [← h]
    simp
  | cons e es ih =>
    simp only [run] at h
    cases hs : step e t with
    | none => simp [hs] at h
    | some u =>
      simp only [hs] at h
      have hes : ∀ x ∈ es, x.is_activate = false := fun x hx => hna x (List.mem_cons_of_mem e hx)
      obtain ⟨hu, hcase⟩ := step_blocked e t u hs (hna e (List.mem_cons_self e es)) ha hpc
      rcases hcase with ⟨ret, count, rfl, hupc, herr, hok⟩ | ⟨hnr, hupc, hucb⟩
      · have hne : u.pc ≠ worker_pc.reading := by simp [hupc]
        obtain ⟨hcb, hnone⟩ := run_idle es u t1 h hes hu hne
        by_cases hr : ret = -1
        · left
          refine ⟨hcb.trans (herr hr), ?_⟩
          intro ret2 count2 hmem
          rcases List.mem_cons.mp hmem with heq | htl
          · cases heq
            exact hr
          · exact absurd htl (hnone ret2 count2)
        · right
          obtain ⟨c, hc1, hc2⟩ := hok hr
          exact ⟨c, hcb.trans hc1, hc2, ret, count, hr, List.mem_cons_self _ _⟩
      · rcases ih u h hes hu hupc with ⟨h1, h2⟩ | ⟨c, h1, h2, ret, count, h3, h4⟩
        · left
          refine ⟨h1.trans hucb, ?_⟩
          intro ret2 count2 hmem
          rcases List.mem_cons.mp hmem with heq | htl
          · exact absurd heq.symm (hnr ret2 count2)
          · exact h2 ret2 count2 htl
        · right
          exact ⟨c, by rw [h1, hucb], h2, ret, count, h3, List.mem_cons_of_mem e h4⟩

/-- C2, counterexample: on the sample timer (duration 5), the worker is waiting
on the condition when `timerlib_activate` and then `timerlib_cancel` run; the
worker wakes only afterwards, finds `active` zero and waits again. No callback
was made, and none is made in any continuation without a further activate. -/
theorem cancel_before_worker_wakes :
    timerlib_create_args { secs := 5, cb := 7, cookie := 9 } true 3 0 = some fresh5 ∧
    run [event.worker_lock, event.worker_top, event.activate sys_ok, event.cancel sys_ok,
         event.worker_wake, event.worker_top] fresh5 = some missed5 ∧
    missed5.cb_calls = [] ∧ missed5.pc = worker_pc.waiting ∧
    (∀ post t, (∀ e ∈ post, e.is_activate = false) → run post missed5 = some t →
      t.cb_calls = []) := by
  refine ⟨by decide, by decide, rfl, rfl, ?_⟩
  intro post t hna h
  exact (run_idle post missed5 t h hna rfl (by decide)).1

/-- C2, amended: for every duration `d ≥ 1` and every interleaving, on a
freshly created timer `timerlib_activate` followed by `timerlib_cancel` before
the worker's `read` has returned, with no further activate, results in at most
one callback, and never one of kind `NET_TIMER_EXPIRED`: every callback made is
`NET_TIMER_CANCELLED`. Exactly one `NET_TIMER_CANCELLED` callback is made when
the worker was already blocked on the handle at the cancel and its `read` then
returns normally. No callback is made when the cancel ran before the worker
saw `active` set, or when the `read` fails. -/
theorem activate_then_cancel (d : Int) (_hd : 1 ≤ d) (cb cookie : Nat) (fd : Int)
    (t0 u t : timer) (pre mid post : List event) (r1 r2 : sys_result)
    (h0 : timerlib_create_args { secs := d, cb := cb, cookie := cookie } true fd 0 = some t0)
    (hpre : ∀ e ∈ pre, e.is_quiet = true)
    (hmid : ∀ e ∈ mid, e.is_quiet = true)
    (hpost : ∀ e ∈ post, e.is_activate = false)
    (hu : run (pre ++ event.activate r1 :: mid) t0 = some u)
    (ht : run (event.cancel r2 :: post) u = some t) :
    t.cb_calls.length ≤ 1 ∧
    (∀ c ∈ t.cb_calls, c.state = timerlib_state.NET_TIMER_CANCELLED) ∧
    (u.pc ≠ worker_pc.reading → t.cb_calls = []) ∧
    (u.pc = worker_pc.reading →
      (∃ ret count, ret ≠ -1 ∧ event.worker_read ret count ∈ post) →
      ∃ c, t.cb_calls = [c] ∧ c.state = timerlib_state.NET_TIMER_CANCELLED) ∧
    (u.pc = worker_pc.reading →
      (∀ ret count, event.worker_read ret count ∈ post → ret = -1) →
      t.cb_calls = []) := by
  have h0cb : t0.cb_calls = [] := by
    unfold timerlib_create_args at h0
    split_ifs at h0 <;> cases h0 <;> rfl
  obtain ⟨a, ha, hrest⟩ := (run_append pre (event.activate r1 :: mid) t0 u).mp hu
  simp only [run] at hrest
  cases hsa : step (event.activate r1) a with
  | none => simp [hsa] at hrest
  | some b =>
    simp only [hsa] at hrest
    have hacb : a.cb_calls = [] := (run_quiet pre t0 a ha hpre).2.trans h0cb
    have hbcb : b.cb_calls = [] := by
      simp only [step] at hsa
      split_ifs at hsa
      cases hsa
      simp only [timerlib_activate_locked, timerlib_set_timeout]
      split_ifs <;> simp [hacb]
    have hucb : u.cb_calls = [] := (run_quiet mid b u hrest hmid).2.trans hbcb
    simp only [run] at ht
    cases hsc : step (event.cancel r2) u with
    | none => simp [hsc] at ht
    | some v =>
      simp only [hsc] at ht
      simp only [step] at hsc
      split_ifs at hsc
      cases hsc
      obtain ⟨_, hv1, _, _, hv5, _, hv7, _⟩ := cancel_fields u r2
      by_cases hr : u.pc = worker_pc.reading
      · have hb := run_blocked post _ t ht hpost hv1 (hv7.trans hr)
        rw [hv5, hucb] at hb
        rcases hb with ⟨h1, h2⟩ | ⟨c, h1, h2, ret, count, h3, h4⟩
        · refine ⟨by simp [h1], by simp [h1], fun _ => h1, ?_, fun _ _ => h1⟩
          intro _ hex
          obtain ⟨ret, count, hne, hmem⟩ := hex
          exact absurd (h2 ret count hmem) hne
        · simp only [List.nil_append] at h1
          refine ⟨by simp [h1], by simp [h1, h2], fun hn => absurd hr hn,
            fun _ _ => ⟨c, h1, h2⟩, ?_⟩
          intro _ hall
          exact absurd (hall ret count h4) h3
      · have hi := run_idle post _ t ht hpost hv1 (by rw [hv7]; exact hr)
        rw [hv5, hucb] at hi
        refine ⟨by simp [hi.1], by simp [hi.1], fun _ => hi.1, fun h => absurd h hr,
          fun h => absurd h hr⟩

/-- Witness for `activate_then_cancel`: on the sample timer the worker is
blocked in `read` when the cancel runs, the forced wake makes `read` return, and
exactly one `NET_TIMER_CANCELLED` callback results. -/
theorem activate_then_cancel_witness :
    (1 : Int) ≤ 5 ∧
    timerlib_create_args { secs := 5, cb := 7, cookie := 9 } true 3 0 = some fresh5 ∧
    run ([event.worker_lock, event.worker_top] ++
      event.activate sys_ok :: [event.worker_wake, event.worker_top]) fresh5 = some armed5 ∧
    armed5.pc = worker_pc.reading ∧
    ∃ t c, run (event.cancel sys_ok :: [event.worker_read 8 1, event.worker_top]) armed5
        = some t ∧
      t.cb_calls = [c] ∧ c.state = timerlib_state.NET_TIMER_CANCELLED := by
  refine ⟨by decide, by decide, by decide, rfl, ?_⟩
  cases h : run (event.cancel sys_ok :: [event.worker_read 8 1, event.worker_top]) armed5 with
  | none => exact absurd h (by decide)
  | some t =>
    obtain ⟨c, hc1, hc2⟩ :=
      (activate_then_cancel 5 (by decide) 7 9 3 fresh5 armed5 t
        [event.worker_lock, event.worker_top] [event.worker_wake, event.worker_top]
        [event.worker_read 8 1, event.worker_top] sys_ok sys_ok
        (by decide) (by decide) (by decide) (by decide) (by decide) h).2.2.2.1 rfl
        ⟨8, 1, by decide, by simp⟩
    exact ⟨t, c, rfl, hc1, hc2⟩

end Timerlib
